import Mathlib

set_option linter.unusedVariables false
set_option maxRecDepth 16384

/-
  Verification development for the resume-analyser advisory pipeline
  (src/llm_service.py).  Python JSON-like values are shallowly embedded as
  the inductive type `JVal`; the module's validators, coercers, the Gemini
  client loop and the higher-level advisory operations are translated as
  executable Lean functions.  Network calls are abstracted by oracles
  supplying each call's outcome (returned text, HTTP error, or raised
  transport exception); all other control flow follows the source.
-/

namespace LlmService

/-- Models a Python JSON-like value: `None`, `bool`, `int`, `float`
(represented exactly as a rational), `str`, `list`, `dict`. -/
inductive JVal where
  | null : JVal
  | bool (b : Bool) : JVal
  | int (n : Int) : JVal
  | rat (q : Rat) : JVal
  | str (s : String) : JVal
  | list (xs : List JVal) : JVal
  | obj (kvs : List (String × JVal)) : JVal

/-- Python whitespace stripped by `str.strip()`. -/
def isPyWs (c : Char) : Bool :=
  c == ' ' || c == '\t' || c == '\n' || c == '\r' || c == '\x0b' || c == '\x0c'

/-- Models `s.strip()`. -/
def pyStrip (s : String) : String :=
  String.mk (((s.toList.dropWhile isPyWs).reverse.dropWhile isPyWs).reverse)

/-- Models `s.lower()` (ASCII, as in the relevant inputs). -/
def lowerStr (s : String) : String := String.mk (s.toList.map Char.toLower)

/-- Models `s.upper()` (ASCII, as in the relevant inputs). -/
def upperStr (s : String) : String := String.mk (s.toList.map Char.toUpper)

/-- The first `n` characters of a string (Python slicing `s[:n]`). -/
def takeStr (s : String) (n : Nat) : String := String.mk (s.toList.take n)

/-- Drop the first `n` characters of a string. -/
def dropStr (s : String) (n : Nat) : String := String.mk (s.toList.drop n)

/-- Join strings with a separator. -/
def joinSep (sep : String) : List String → String
  | [] => ""
  | [x] => x
  | x :: rest => x ++ sep ++ joinSep sep rest

/-- Decimal value of an all-digit, non-empty character list. -/
def charListToNat? (cs : List Char) : Option Nat :=
  if cs.isEmpty then none
  else if cs.all Char.isDigit then
    some (cs.foldl (fun a c => a * 10 + (c.toNat - 48)) 0)
  else none

/-- Models `int(s)` on a digit-only string / `str.isdigit` + `int`. -/
def strToNat? (s : String) : Option Nat := charListToNat? s.toList

/-- Split at every occurrence of a character (Python `str.split(c)`). -/
def splitOnChar (c : Char) : List Char → List (List Char)
  | [] => [[]]
  | a :: rest =>
    if a == c then [] :: splitOnChar c rest
    else
      match splitOnChar c rest with
      | s :: ss => (a :: s) :: ss
      | [] => [[a]]

/-- Models `str.splitlines()` for line-feed separated text. -/
def splitLinesLF (s : String) : List String :=
  ((splitOnChar '\n' s.toList).map String.mk)

/-- First-occurrence association lookup on a key/value list (dict keys built
by the embedding are unique, so this models Python dict lookup). -/
def jget : List (String × JVal) → String → Option JVal
  | [], _ => none
  | (k, v) :: rest, key => if k = key then some v else jget rest key

/-- Models Python `d.get(k)` (returns `None`, here `none`, for non-dicts or
missing keys). -/
def dget (d : JVal) (k : String) : Option JVal :=
  match d with
  | .obj kvs => jget kvs k
  | _ => none

/-- Replace the value at an existing key (keeping its position) or append;
models Python `d[k] = v` on a dict.  On non-dicts it is the identity (the
source only assigns into dicts). -/
def jset : List (String × JVal) → String → JVal → List (String × JVal)
  | [], key, v => [(key, v)]
  | (k, w) :: rest, key, v =>
      if k = key then (k, v) :: rest else (k, w) :: jset rest key v

/-- Models Python `d[k] = v` on a `JVal` dict. -/
def dset (d : JVal) (k : String) (v : JVal) : JVal :=
  match d with
  | .obj kvs => .obj (jset kvs k v)
  | other => other

/-- Python truthiness of a value. -/
def truthy : JVal → Bool
  | .null => false
  | .bool b => b
  | .int n => n != 0
  | .rat q => q != 0
  | .str s => s != ""
  | .list xs => !xs.isEmpty
  | .obj kvs => !kvs.isEmpty

/-- Models Python `x or y` for JSON values (`y` when `x` is falsy). -/
def pyOr (x y : JVal) : JVal := if truthy x then x else y

/-- Models Python `x or y` where `x` may be `None` (`Option`). -/
def pyOrOpt (x : Option JVal) (y : JVal) : JVal :=
  match x with
  | some v => pyOr v y
  | none => y

mutual

/-- Models Python `str(v)` (float formatting approximated by the rational's
canonical form; containers print their elements with `repr`). -/
def pystr : JVal → String
  | .null => "None"
  | .bool b => if b then "True" else "False"
  | .int n => toString n
  | .rat q => toString q
  | .str s => s
  | .list xs => "[" ++ joinSep ", " (pyreprList xs) ++ "]"
  | .obj kvs => "\x7b" ++ joinSep ", " (pyreprObj kvs) ++ "\x7d"

/-- Models Python `repr(v)` as used for elements inside container `str`. -/
def pyrepr : JVal → String
  | .str s => "'" ++ s ++ "'"
  | .null => "None"
  | .bool b => if b then "True" else "False"
  | .int n => toString n
  | .rat q => toString q
  | .list xs => "[" ++ joinSep ", " (pyreprList xs) ++ "]"
  | .obj kvs => "\x7b" ++ joinSep ", " (pyreprObj kvs) ++ "\x7d"

def pyreprList : List JVal → List String
  | [] => []
  | x :: xs => pyrepr x :: pyreprList xs

def pyreprObj : List (String × JVal) → List String
  | [] => []
  | (k, v) :: kvs => ("'" ++ k ++ "': " ++ pyrepr v) :: pyreprObj kvs

end

/-- Character-list prefix comparison used by the substring test. -/
def takeEq : List Char → List Char → Bool
  | [], _ => true
  | _ :: _, [] => false
  | a :: as, b :: bs => a == b && takeEq as bs

/-- Substring scan on character lists. -/
def listHasSub (needle : List Char) : List Char → Bool
  | [] => needle.isEmpty
  | c :: rest => takeEq needle (c :: rest) || listHasSub needle rest

/-- Models Python `needle in hay` for strings (contiguous substring). -/
def pyIn (needle hay : String) : Bool :=
  listHasSub needle.toList hay.toList

/-- JSON whitespace characters. -/
def isWs (c : Char) : Bool :=
  c == ' ' || c == '\t' || c == '\n' || c == '\r'

/-- Drop leading whitespace from a character list. -/
def skipWs : List Char → List Char
  | [] => []
  | c :: rest => if isWs c then skipWs rest else c :: rest

/-- Parse the body of a quoted string literal up to the closing `quote`,
decoding the common escapes (unknown escapes keep the escaped character). -/
def parseStrBody (quote : Char) : List Char → Option (List Char × List Char)
  | [] => none
  | c :: rest =>
    if c == quote then some ([], rest)
    else if c == '\\' then
      match rest with
      | [] => none
      | e :: rest2 =>
        let ch := if e == 'n' then '\n' else if e == 't' then '\t'
                  else if e == 'r' then '\r' else e
        match parseStrBody quote rest2 with
        | some (cs, rem) => some (ch :: cs, rem)
        | none => none
    else
      match parseStrBody quote rest with
      | some (cs, rem) => some (c :: cs, rem)
      | none => none

/-- Parse an optionally signed decimal number (integer or decimal fraction;
exponents are not modelled).  Integers become `JVal.int`, decimals become
`JVal.rat`, mirroring `json.loads` producing `int` or `float`. -/
def parseNumber (cs : List Char) : Option (JVal × List Char) :=
  let (neg, cs1) := match cs with
    | '-' :: rest => (true, rest)
    | _ => (false, cs)
  let intDigits := cs1.takeWhile Char.isDigit
  let rest1 := cs1.dropWhile Char.isDigit
  if intDigits.isEmpty then none
  else
    let iv : Int := intDigits.foldl (fun a c => a * 10 + (c.toNat - 48)) (0 : Int)
    match rest1 with
    | '.' :: rest2 =>
      let fracDigits := rest2.takeWhile Char.isDigit
      let rest3 := rest2.dropWhile Char.isDigit
      if fracDigits.isEmpty then none
      else
        let fv : Int := fracDigits.foldl (fun a c => a * 10 + (c.toNat - 48)) (0 : Int)
        let q : Rat := (iv : Rat) + (fv : Rat) / ((10 : Rat) ^ fracDigits.length)
        some (.rat (if neg then -q else q), rest3)
    | _ => some (.int (if neg then -iv else iv), rest1)

/-- Check that the lowercased text starts with the given word. -/
def startsWithCI (w : List Char) (cs : List Char) : Bool :=
  takeEq w ((cs.take w.length).map Char.toLower)

mutual

/-- Fuel-indexed recursive-descent parser for JSON-like text.  `py = false`
models `json.loads`; `py = true` models `ast.literal_eval` on the
boolean/null-substituted text (single-quoted strings, `True`/`False`/`None`
keywords and trailing commas allowed). -/
def parseVal (py : Bool) : Nat → List Char → Option (JVal × List Char)
  | 0, _ => none
  | fuel + 1, cs =>
    match skipWs cs with
    | [] => none
    | c :: rest =>
      if c == '"' then
        match parseStrBody '"' rest with
        | some (body, rem) => some (.str (String.mk body), rem)
        | none => none
      else if py && c == '\'' then
        match parseStrBody '\'' rest with
        | some (body, rem) => some (.str (String.mk body), rem)
        | none => none
      else if c == '[' then
        match skipWs rest with
        | ']' :: rem => some (.list [], rem)
        | cs2 => match parseItems py fuel cs2 with
          | some (vs, rem) => some (.list vs, rem)
          | none => none
      else if c == '\x7b' then
        match skipWs rest with
        | '\x7d' :: rem => some (.obj [], rem)
        | cs2 => match parseFields py fuel [] cs2 with
          | some (kvs, rem) => some (.obj kvs, rem)
          | none => none
      else if !py && takeEq "true".toList (c :: rest) then
        some (.bool true, (c :: rest).drop 4)
      else if !py && takeEq "false".toList (c :: rest) then
        some (.bool false, (c :: rest).drop 5)
      else if !py && takeEq "null".toList (c :: rest) then
        some (.null, (c :: rest).drop 4)
      else if py && takeEq "True".toList (c :: rest) then
        some (.bool true, (c :: rest).drop 4)
      else if py && takeEq "False".toList (c :: rest) then
        some (.bool false, (c :: rest).drop 5)
      else if py && takeEq "None".toList (c :: rest) then
        some (.null, (c :: rest).drop 4)
      else
        parseNumber (c :: rest)

/-- Parse one or more comma-separated array items up to `]`. -/
def parseItems (py : Bool) : Nat → List Char → Option (List JVal × List Char)
  | 0, _ => none
  | fuel + 1, cs =>
    match parseVal py fuel cs with
    | none => none
    | some (v, rem) =>
      match skipWs rem with
      | ',' :: rem2 =>
        if py then
          match skipWs rem2 with
          | ']' :: rem3 => some ([v], rem3)
          | cs3 => match parseItems py fuel cs3 with
            | some (vs, rem3) => some (v :: vs, rem3)
            | none => none
        else
          match parseItems py fuel rem2 with
          | some (vs, rem3) => some (v :: vs, rem3)
          | none => none
      | ']' :: rem2 => some ([v], rem2)
      | _ => none

/-- Parse one or more `"key": value` fields up to the closing brace.
Duplicate keys keep the first position but take the last value, modelling
Python dict construction. -/
def parseFields (py : Bool) : Nat → List (String × JVal) → List Char →
    Option (List (String × JVal) × List Char)
  | 0, _, _ => none
  | fuel + 1, acc, cs =>
    let parseKey : List Char → Option (String × List Char) := fun cs2 =>
      match cs2 with
      | '"' :: rest =>
        match parseStrBody '"' rest with
        | some (body, rem) => some (String.mk body, rem)
        | none => none
      | '\'' :: rest =>
        if py then
          match parseStrBody '\'' rest with
          | some (body, rem) => some (String.mk body, rem)
          | none => none
        else none
      | _ => none
    match parseKey (skipWs cs) with
    | none => none
    | some (k, rem) =>
      match skipWs rem with
      | ':' :: rem2 =>
        match parseVal py fuel rem2 with
        | none => none
        | some (v, rem3) =>
          let acc2 := jset acc k v
          match skipWs rem3 with
          | ',' :: rem4 =>
            if py then
              match skipWs rem4 with
              | '\x7d' :: rem5 => some (acc2, rem5)
              | cs5 => parseFields py fuel acc2 cs5
            else parseFields py fuel acc2 rem4
          | '\x7d' :: rem4 => some (acc2, rem4)
          | _ => none
      | _ => none

end

/-- Run a parser over a whole string, rejecting trailing garbage as
`json.loads` and `ast.literal_eval` do. -/
def parseFull (py : Bool) (s : String) : Option JVal :=
  match parseVal py (s.length + 2) s.toList with
  | some (v, rem) => if (skipWs rem).isEmpty then some v else none
  | none => none

/-- Remove every occurrence of a code fence, optionally followed by `json`
in any letter case; models `re.sub` with the fence pattern, ignore-case. -/
def stripFences : Nat → String → String
  | 0, s => s
  | fuel + 1, s =>
    if s == "" then ""
    else if takeStr s 3 == "```" then
      let rest := dropStr s 3
      let rest := if lowerStr (takeStr rest 4) == "json" then dropStr rest 4 else rest
      stripFences fuel rest
    else takeStr s 1 ++ stripFences fuel (dropStr s 1)

/-- Index of the last character satisfying `p`. -/
def lastIdx (p : Char → Bool) (cs : List Char) : Option Nat :=
  match List.findIdx? p cs.reverse with
  | some i => some (cs.length - 1 - i)
  | none => none

/-- Models slicing out the outermost `{...}` span: `find('{')`, `rfind('}')`,
slice when both found and end exceeds start. -/
def extractBraces (s : String) : String :=
  let cs := s.toList
  match List.findIdx? (· == '\x7b') cs, lastIdx (· == '\x7d') cs with
  | some st, some en =>
    if en > st then String.mk ((cs.drop st).take (en - st + 1)) else s
  | _, _ => s

/-- Models `re.sub` removing a comma (plus following whitespace) that
directly precedes a closing brace or bracket, anywhere in the text
(fuel-indexed recursion; the initial fuel covers the whole input). -/
def removeTrailingCommas : Nat → List Char → List Char
  | 0, cs => cs
  | _, [] => []
  | fuel + 1, c :: rest =>
    if c == ',' then
      let rest2 := rest.dropWhile isWs
      match rest2 with
      | b :: _ =>
        if b == '\x7d' || b == ']' then removeTrailingCommas fuel rest2
        else c :: removeTrailingCommas fuel rest
      | [] => c :: removeTrailingCommas fuel rest
    else c :: removeTrailingCommas fuel rest

/-- Word-constituent characters for the `\b` boundary in the token
substitution. -/
def isWordChar (c : Char) : Bool := c.isAlphanum || c == '_'

/-- True when the list starts with a word character. -/
def wordAt : List Char → Bool
  | [] => false
  | c :: _ => isWordChar c

/-- Models the three case-insensitive whole-word substitutions
`true→True`, `false→False`, `null→None` applied before the Python-literal
fallback parse.  `prev` is the character preceding the current position in
the original text (for the word boundary). -/
def substBools : Nat → Option Char → List Char → List Char
  | 0, _, cs => cs
  | _, _, [] => []
  | fuel + 1, prev, c :: rest =>
    let cs := c :: rest
    let boundary := match prev with
      | some p => !isWordChar p
      | none => true
    if boundary && startsWithCI "true".toList cs && !wordAt (cs.drop 4) then
      "True".toList ++ substBools fuel (some 'e') (cs.drop 4)
    else if boundary && startsWithCI "false".toList cs && !wordAt (cs.drop 5) then
      "False".toList ++ substBools fuel (some 'e') (cs.drop 5)
    else if boundary && startsWithCI "null".toList cs && !wordAt (cs.drop 4) then
      "None".toList ++ substBools fuel (some 'l') (cs.drop 4)
    else c :: substBools fuel (some c) rest

/-- Models `_safe_json_parse`: direct JSON parse, then fence/prose cleanup
with outer-brace extraction and trailing-comma removal, then a last-resort
Python-literal parse with boolean/null token substitution. -/
def _safe_json_parse (text : String) : Option JVal :=
  match parseFull false text with
  | some v => some v
  | none =>
    if text = "" then none
    else
      let cleaned := pyStrip text
      let cleaned := pyStrip (stripFences cleaned.length cleaned)
      let cleaned := extractBraces cleaned
      let cleaned := String.mk (removeTrailingCommas cleaned.length cleaned.toList)
      match parseFull false cleaned with
      | some v => some v
      | none =>
        let py_like := String.mk (substBools cleaned.length none cleaned.toList)
        parseFull true py_like

/-- Separator class of the item-splitting regex.  The doubled backslash in
the source pattern makes the class match a literal backslash and the letter
`n` rather than a newline, together with comma, semicolon and pipe. -/
def sepChar (c : Char) : Bool :=
  c == '\\' || c == 'n' || c == ',' || c == ';' || c == '|'

/-- Leading-junk class of the item-cleanup regex.  The doubled backslashes
make the class contain a literal backslash, the letters `s` and `d`, a
period and a closing parenthesis (not whitespace or digits). -/
def itemJunk (c : Char) : Bool :=
  c == '\\' || c == 's' || c == 'd' || c == '.' || c == ')'

/-- Split on maximal runs of separator characters, keeping empty segments
at the edges as `re.split` does (fuel-indexed). -/
def splitRuns (p : Char → Bool) : Nat → List Char → List (List Char)
  | 0, cs => [cs]
  | _, [] => [[]]
  | fuel + 1, c :: rest =>
    if p c then [] :: splitRuns p fuel (rest.dropWhile p)
    else
      match splitRuns p fuel rest with
      | s :: ss => (c :: s) :: ss
      | [] => [[c]]

/-- Zero or more letters `s` in either case (the `(?i)` flag covers them). -/
def manyS (cs : List Char) : List Char :=
  cs.dropWhile (fun c => c.toLower == 's')

/-- The tail of the label-stripping pattern after the label word: because of
the doubled backslashes it requires a literal backslash, optional `s`s, one
of `:`/backslash/`-`, another literal backslash and optional `s`s. -/
def afterLabel (cs : List Char) : Option (List Char) :=
  match cs with
  | '\\' :: r1 =>
    (match manyS r1 with
     | c :: r3 =>
       if c == ':' || c == '\\' || c == '-' then
         match r3 with
         | '\\' :: r4 => some (manyS r4)
         | _ => none
       else none
     | [] => none)
  | _ => none

/-- Models the case-insensitive anchored `re.sub` removing a
`matched`/`missing`/`bonus` label head (which, due to the double-escaped
pattern, additionally requires literal backslashes and so rarely fires). -/
def labelStrip (s : String) : String :=
  let cs := s.toList
  let tryLabel : List Char → Option (List Char) := fun w =>
    if startsWithCI w cs then afterLabel (cs.drop w.length) else none
  match tryLabel "matched".toList with
  | some rest => String.mk rest
  | none =>
    match tryLabel "missing".toList with
    | some rest => String.mk rest
    | none =>
      match tryLabel "bonus".toList with
      | some rest => String.mk rest
      | none => s

/-- The accumulation loop of `_split_items`: clean each part, drop empties
and `none`/`n/a`/`na`, and stop once the optional cap is reached. -/
def splitItemsLoop (max_items : Option Nat) : List String → List String → List String
  | [], items => items
  | part :: rest, items =>
    let item := pyStrip (String.mk (part.toList.dropWhile itemJunk))
    if item == "" then splitItemsLoop max_items rest items
    else if lowerStr item == "none" || lowerStr item == "n/a" || lowerStr item == "na" then
      splitItemsLoop max_items rest items
    else
      let items2 := items ++ [item]
      if (match max_items with
          | some m => decide (0 < m) && decide (m ≤ items2.length)
          | none => false) then items2
      else splitItemsLoop max_items rest items2

/-- Models `_split_items`: fence/label cleanup, split on separator runs,
strip leading junk, filter placeholders, cap the item count. -/
def _split_items (text : String) (max_items : Option Nat) : List String :=
  if text == "" then []
  else
    let cleaned := pyStrip text
    let cleaned := pyStrip (stripFences cleaned.length cleaned)
    let cleaned := labelStrip cleaned
    let parts := (splitRuns sepChar (cleaned.length + 1) cleaned.toList).map String.mk
    splitItemsLoop max_items parts []

/-- Models `_validate_scores_quickmatch`: structural check that scores,
quick-match fields and keyword lists are present with the right types. -/
def _validate_scores_quickmatch (data : JVal) : Bool :=
  match data with
  | .obj _ =>
    (match dget data "scores" with
     | some (.obj skvs) =>
       (jget skvs "ats").isSome && (jget skvs "text_similarity").isSome &&
       (jget skvs "skill_match").isSome && (jget skvs "verb_alignment").isSome
     | _ => false)
    &&
    (match dget data "quick_match" with
     | some (qm@(.obj _)) =>
       ["experience", "education", "skills", "location"].all fun f =>
         match dget qm f with
         | some (item@(.obj _)) =>
           (dget item "cv_value").isSome && (dget item "jd_value").isSome
         | _ => false
     | _ => false)
    &&
    (match dget data "keywords" with
     | some (kw@(.obj _)) =>
       (match dget kw "jd" with | some (.list _) => true | _ => false) &&
       (match dget kw "cv" with | some (.list _) => true | _ => false)
     | _ => false)
  | _ => false

/-- Python `int(q)` on a float truncates toward zero. -/
def pyTrunc (q : Rat) : Int := if q < 0 then ⌈q⌉ else ⌊q⌋

/-- Models the nested `_num` helper: numbers (booleans included, as in
Python) are clamped into `[0, 100]`; digit-only strings are parsed and
clamped; anything else becomes 0. -/
def _num : Option JVal → Int
  | some (.bool b) => max 0 (min 100 (if b then 1 else 0))
  | some (.int n) => max 0 (min 100 n)
  | some (.rat q) => max 0 (min 100 (pyTrunc q))
  | some (.str s) =>
    match strToNat? (pyStrip s) with
    | some n => max 0 (min 100 (n : Int))
    | none => 0
  | _ => 0

/-- Models the nested `_qm_item` helper: defaults `cv_value`/`jd_value` to
"Not specified", coerces to strings, and forces `match_quality` into the
four allowed labels. -/
def _qm_item (raw0 : Option JVal) : JVal :=
  let raw := match raw0 with
    | some (r@(.obj _)) => r
    | _ => .obj []
  let cv_val := match dget raw "cv_value" with
    | none => "Not specified"
    | some .null => "Not specified"
    | some v => pystr v
  let jd_val := match dget raw "jd_value" with
    | none => "Not specified"
    | some .null => "Not specified"
    | some v => pystr v
  let mq0 := pystr ((dget raw "match_quality").getD (.str "Not a Match"))
  let match_quality :=
    if mq0 == "Strong Match" || mq0 == "Good Match" || mq0 == "Weak Match" ||
       mq0 == "Not a Match" then mq0 else "Not a Match"
  .obj [("cv_value", .str cv_val), ("jd_value", .str jd_val),
        ("match_quality", .str match_quality)]

/-- Keyword elements kept by the coercer (`str`, `int`, `float`; Python
booleans are `int` instances and are kept too). -/
def isKwElem : JVal → Bool
  | .str _ => true
  | .int _ => true
  | .rat _ => true
  | .bool _ => true
  | _ => false

/-- Models `_coerce_scores_quickmatch`: total coercion of arbitrary input
into the full scores/quick-match/keywords shape with safe defaults. -/
def _coerce_scores_quickmatch (data0 : JVal) : JVal :=
  let data := match data0 with
    | .obj _ => data0
    | _ => .obj []
  let scores := match dget data "scores" with
    | some (s@(.obj _)) => s
    | _ => .obj []
  let scoresOut : JVal := .obj [
    ("ats", .int (_num (dget scores "ats"))),
    ("text_similarity", .int (_num (dget scores "text_similarity"))),
    ("skill_match", .int (_num (dget scores "skill_match"))),
    ("verb_alignment", .int (_num (dget scores "verb_alignment")))]
  let qm := match dget data "quick_match" with
    | some (q@(.obj _)) => q
    | _ => .obj []
  let quick_match : JVal := .obj [
    ("experience", _qm_item (dget qm "experience")),
    ("education", _qm_item (dget qm "education")),
    ("skills", _qm_item (dget qm "skills")),
    ("location", _qm_item (dget qm "location"))]
  let keywords := match dget data "keywords" with
    | some (k@(.obj _)) => k
    | _ => .obj []
  let jd_kw0 := match dget keywords "jd" with
    | some (.list xs) => xs
    | _ => []
  let cv_kw0 := match dget keywords "cv" with
    | some (.list xs) => xs
    | _ => []
  let jd_kw := ((jd_kw0.filter isKwElem).map (fun x => JVal.str (pystr x))).take 12
  let cv_kw := ((cv_kw0.filter isKwElem).map (fun x => JVal.str (pystr x))).take 12
  .obj [("scores", scoresOut), ("quick_match", quick_match),
        ("keywords", .obj [("jd", .list jd_kw), ("cv", .list cv_kw)])]

/-- Models `_validate_categories`: dict with a 6-element `key_categories`
list and list-typed matched/missing/bonus fields. -/
def _validate_categories (data : JVal) : Bool :=
  match data with
  | .obj _ =>
    (match dget data "key_categories" with
     | some (.list xs) => xs.length == 6
     | _ => false)
    && (["matched_categories", "missing_categories", "bonus_categories"].all fun n =>
        match dget data n with
        | some (.list _) => true
        | _ => false)
  | _ => false

/-- Models `_validate_skill_groups`: non-empty group list whose categories
all come from the given key categories (case-insensitive, stripped) and
whose skill lists are non-empty. -/
def _validate_skill_groups (data : JVal) (key_categories : List JVal) : Bool :=
  match data with
  | .obj _ =>
    (match dget data "skill_groups" with
     | some (.list groups) =>
       !groups.isEmpty &&
       (let valid := key_categories.filterMap fun c =>
          match c with
          | .str s => some (lowerStr (pyStrip s))
          | _ => none
        !valid.isEmpty &&
        groups.all fun g =>
          match g with
          | .obj _ =>
            valid.contains (lowerStr (pyStrip (pystr ((dget g "category").getD (.str ""))))) &&
            (match dget g "skills" with
             | some (.list sk) => !sk.isEmpty
             | _ => false)
          | _ => false)
     | _ => false)
  | _ => false

/-- Models `_validate_insights`: dict with a string summary and list-typed
suggestion/strength/gap fields. -/
def _validate_insights (data : JVal) : Bool :=
  match data with
  | .obj _ =>
    (match dget data "profile_summary" with
     | some (.str _) => true
     | _ => false) &&
    (match dget data "enhanced_suggestions" with
     | some (.list _) => true
     | _ => false) &&
    (match dget data "working_well" with
     | some (.list _) => true
     | _ => false) &&
    (match dget data "needs_improvement" with
     | some (.list _) => true
     | _ => false)
  | _ => false

/-- Outcome of one HTTP request to the model service: a parsed success
body (finish reason plus text parts), a non-success status code, or a
transport-level exception raised by the request call. -/
inductive HttpResp where
  | ok (finishReason : Option String) (parts : List String) : HttpResp
  | err (status : Nat) (body : String) : HttpResp
  | exc (msg : String) : HttpResp

/-- Result of `_call_gemini`: the returned text or the raised error
message, the list of models actually requested, and the updated
last-working-model cache field. -/
structure GemResult where
  result : Except String String
  attempts : List String
  lastWorking : Option String

/-- The candidate-iteration loop of `_call_gemini`.  State mirrors the
source: `lastError`, `bestText`/`bestModel` (longest output seen), and the
process-wide last-working-model field.  The non-404 `raise` in the source
is caught by its own surrounding generic `except`, so it records the
message and advances exactly like a transport exception. -/
def _call_gemini_loop (respOf : String → HttpResp) (minChars : Nat) :
    List String → Option String → String → Option String → Option String → GemResult
  | [], lastError, bestText, bestModel, lastWorking =>
    if bestText != "" then
      { result := .ok bestText,
        attempts := [],
        lastWorking := match bestModel with
          | some m => if m != "" then some m else lastWorking
          | none => lastWorking }
    else
      let e := lastError.getD ""
      { result := .error ("Gemini error: " ++
          (if e == "" then "no supported model found" else e)),
        attempts := [],
        lastWorking := lastWorking }
  | model :: rest, lastError, bestText, bestModel, lastWorking =>
    match respOf model with
    | .ok finish parts =>
      let text := String.join parts
      let bestText2 := if text.length > bestText.length then text else bestText
      let bestModel2 := if text.length > bestText.length then some model else bestModel
      if finish == some "MAX_TOKENS" && text.length < minChars then
        let r := _call_gemini_loop respOf minChars rest
          (some ("short_output_" ++ toString text.length)) bestText2 bestModel2 lastWorking
        { r with attempts := model :: r.attempts }
      else
        { result := .ok text, attempts := [model], lastWorking := some model }
    | .err status body =>
      if status == 404 then
        let r := _call_gemini_loop respOf minChars rest
          (some (toString status ++ " " ++ body)) bestText bestModel lastWorking
        { r with attempts := model :: r.attempts }
      else
        let r := _call_gemini_loop respOf minChars rest
          (some ("Gemini error: " ++ toString status ++ " " ++ body)) bestText bestModel lastWorking
        { r with attempts := model :: r.attempts }
    | .exc msg =>
      let r := _call_gemini_loop respOf minChars rest (some msg) bestText bestModel lastWorking
      { r with attempts := model :: r.attempts }

/-- Models `_call_gemini`: disabled short-circuit, then the candidate loop.
`candidates` is the list produced by `_candidate_models`; `respOf` gives
each model's HTTP outcome for this logical request. -/
def _call_gemini (llmEnabled : Bool) (candidates : List String)
    (respOf : String → HttpResp) (minOutputChars : Nat)
    (lastWorking : Option String) : GemResult :=
  if !llmEnabled then { result := .ok "", attempts := [], lastWorking := lastWorking }
  else _call_gemini_loop respOf minOutputChars candidates none "" none lastWorking

/-- The static fallback preference order of model names. -/
def _PREFERRED_MODELS : List String :=
  ["gemini-2.0-flash", "gemini-1.5-flash", "gemini-1.0-pro", "gemini-2.0-pro"]

/-- Models `_candidate_models`: last working model first, then the
configured default, then preferred models intersected with the listed
available models (or the whole preference order when listing returned
nothing), capped at 6. -/
def _candidate_models (lastWorking : Option String) (geminiModel : String)
    (available : List String) : List String :=
  let candidates : List String := match lastWorking with
    | some m => if m == "" then [] else [m]
    | none => []
  let candidates := if geminiModel != "" && !candidates.contains geminiModel
    then candidates ++ [geminiModel] else candidates
  let candidates := _PREFERRED_MODELS.foldl
    (fun acc m => if available.contains m && !acc.contains m then acc ++ [m] else acc)
    candidates
  let candidates := if available.isEmpty then
      _PREFERRED_MODELS.foldl
        (fun acc m => if !acc.contains m then acc ++ [m] else acc) candidates
    else candidates
  candidates.take 6

/-- Outcome of one `_call_gemini` invocation as observed by the
higher-level operations: the returned text, or the message of the
exception it raised. -/
inductive CallOutcome where
  | ok (text : String) : CallOutcome
  | exc (msg : String) : CallOutcome

/-- Oracle giving the outcome of the n-th `_call_gemini` invocation made
by one operation (abstracting the network and model nondeterminism). -/
abbrev Oracle := Nat → CallOutcome

/-- Operation bodies run in an error monad whose thrown value carries the
Python exception text and the number of calls made so far. -/
abbrev OpM (α : Type) := Except (String × Nat) α

/-- Invoke the model once; `k` is the running call counter. -/
def callE (o : Oracle) (k : Nat) : OpM (String × Nat) :=
  match o k with
  | .ok t => .ok (t, k + 1)
  | .exc m => .error (m, k + 1)

/-- Lift a possibly-raising pure operation into the body monad. -/
def liftExc (e : Except String α) (k : Nat) : OpM α :=
  match e with
  | .ok a => .ok a
  | .error m => .error (m, k)

/-- Models `_repair_json`: empty raw text yields `None` without a call;
otherwise one re-ask call whose output is parsed, any exception giving
`None`. -/
def _repair_json (raw_text : String) (o : Oracle) (k : Nat) : Option JVal × Nat :=
  if raw_text == "" then (none, k)
  else
    match o k with
    | .ok fixed => (_safe_json_parse fixed, k + 1)
    | .exc _ => (none, k + 1)

/-- The ModelCallMeta record `\x7b'enabled': True, 'model': m, 'status': s\x7d`. -/
def metaObj (geminiModel status : String) : JVal :=
  .obj [("enabled", .bool true), ("model", .str geminiModel), ("status", .str status)]

/-- ModelCallMeta with the additional error message field. -/
def metaErrObj (geminiModel status err : String) : JVal :=
  .obj [("enabled", .bool true), ("model", .str geminiModel),
        ("status", .str status), ("error", .str err)]

/-- Models `extract_category_match`: one call, lenient parse, returns the
parsed dict (or an empty dict) with no meta record attached. -/
def extract_category_match (llmEnabled : Bool) (cv_text jd_text : String)
    (o : Oracle) : JVal × Nat :=
  if !llmEnabled then (.obj [], 0)
  else
    match o 0 with
    | .ok raw => (pyOrOpt (_safe_json_parse raw) (.obj []), 1)
    | .exc _ => (.obj [], 1)

/-- Models `extract_jd_top_skills`: one call, parse, per-group structural
filtering capped at 6 groups and 5 skills each. -/
def extract_jd_top_skills (llmEnabled : Bool) (jd_text : String) (o : Oracle) :
    JVal × Nat :=
  if !llmEnabled then (.list [], 0)
  else
    match o 0 with
    | .exc _ => (.list [], 1)
    | .ok raw =>
      let data := pyOrOpt (_safe_json_parse raw) (.obj [])
      let groups := (dget data "skill_groups").getD (.list [])
      match groups with
      | .list xs =>
        let validated := (xs.take 6).filterMap fun g =>
          match g with
          | .obj _ =>
            if truthy ((dget g "category").getD .null) then
              match dget g "skills" with
              | some (.list sk) =>
                let skills := (sk.filter fun s =>
                  match s with
                  | .str t => pyStrip t != ""
                  | _ => false).take 5
                if !skills.isEmpty then
                  some (JVal.obj [
                    ("category", (dget g "category").getD .null),
                    ("skills", .list skills),
                    ("importance", (dget g "importance").getD (.str "Must-have"))])
                else none
              | _ => none
            else none
          | _ => none
        (.list validated, 1)
      | _ =>
        -- slicing a non-list raises (or, for strings, yields no dict
        -- elements): every such case returns the empty list
        (.list [], 1)

/-- `parsed["scores"]["ats"]` of a coerced payload. -/
def atsOf (parsed : JVal) : JVal :=
  (dget ((dget parsed "scores").getD .null) "ats").getD .null

/-- Python `x == 0` for the values a score slot can hold. -/
def pyEqZero : JVal → Bool
  | .int n => n == 0
  | .rat q => q == 0
  | .bool b => !b
  | _ => false

/-- Models `all(v.get("cv_value") == "Not specified" for v in
parsed["quick_match"].values())`. -/
def missing_all_qm (parsed : JVal) : Bool :=
  match dget parsed "quick_match" with
  | some (.obj kvs) => kvs.all fun kv =>
      match dget kv.2 "cv_value" with
      | some (.str s) => s == "Not specified"
      | _ => false
  | _ => false

/-- Python `int(s)` on a stripped string: optional sign and digits. -/
def parseSignedInt (s : String) : Option Int :=
  match s.toList with
  | '-' :: rest => (strToNat? (String.mk rest)).map (fun n => -(n : Int))
  | '+' :: rest => (strToNat? (String.mk rest)).map (fun n => (n : Int))
  | _ => (strToNat? s).map (fun n => (n : Int))

/-- Python `int(x)`, which raises on non-numeric input (no clamping). -/
def pyIntExc : JVal → Except String Int
  | .bool b => .ok (if b then 1 else 0)
  | .int n => .ok n
  | .rat q => .ok (pyTrunc q)
  | .str s =>
    match parseSignedInt (pyStrip s) with
    | some n => .ok n
    | none => .error "invalid literal for int()"
  | _ => .error "int() argument must be a number"

/-- `sp.get(key, 0) or 0` from the scores-only fallback. -/
def getOrZeroTruthy (sp : JVal) (key : String) : JVal :=
  let v := (dget sp key).getD (.int 0)
  if truthy v then v else .int 0

/-- `parsed["scores"][key] = n` on the coerced payload. -/
def setScore (parsed : JVal) (key : String) (n : Int) : JVal :=
  dset parsed "scores" (dset ((dget parsed "scores").getD (.obj [])) key (.int n))

/-- Result of `generate_llm_scores_quickmatch`: the returned payload, the
number of oracle calls made, and an instrumentation flag recording whether
the final scores-only/quick-match-only fallback block executed. -/
structure QMRun where
  out : JVal
  calls : Nat
  finalFallback : Bool

/-- The four unclamped `int(... or 0)` score assignments of the final
scores-only fallback; the first non-numeric value raises. -/
def setScores4 (parsed : JVal) (sp : JVal) (k : Nat) : OpM JVal :=
  match pyIntExc (getOrZeroTruthy sp "ats") with
  | .error m => .error (m, k)
  | .ok a =>
    match pyIntExc (getOrZeroTruthy sp "text_similarity") with
    | .error m => .error (m, k)
    | .ok t =>
      match pyIntExc (getOrZeroTruthy sp "skill_match") with
      | .error m => .error (m, k)
      | .ok sm =>
        match pyIntExc (getOrZeroTruthy sp "verb_alignment") with
        | .error m => .error (m, k)
        | .ok va =>
          .ok (setScore (setScore (setScore (setScore parsed "ats" a)
            "text_similarity" t) "skill_match" sm) "verb_alignment" va)

/-- The minimal-schema retry of `generate_llm_scores_quickmatch`: one call,
lenient parse with repair, re-coercion, keywords carried over from the
previous payload. -/
def qmMinRetry (parsed : JVal) (o : Oracle) (k : Nat) : OpM (JVal × Nat) :=
  match o k with
  | .exc m => .error (m, k + 1)
  | .ok raw_min =>
    let k2 := k + 1
    let parsed_min := pyOrOpt (_safe_json_parse raw_min) (.obj [])
    let pm :=
      if !(match parsed_min with | .obj _ => truthy parsed_min | _ => false) then
        let (r, k4) := _repair_json raw_min o k2
        (pyOrOpt r (.obj []), k4)
      else (parsed_min, k2)
    let parsed_min := _coerce_scores_quickmatch pm.1
    let parsed_min := dset parsed_min "keywords"
      ((dget parsed "keywords").getD (.obj [("jd", .list []), ("cv", .list [])]))
    .ok (parsed_min, pm.2)

/-- The final fallback of `generate_llm_scores_quickmatch`: a scores-only
request whose values are `int`-converted without clamping, then a
quick-match-only request coerced into the quick-match sub-shape. -/
def qmFinalFallback (parsed : JVal) (o : Oracle) (k : Nat) : OpM (JVal × Nat) :=
  match o k with
  | .exc m => .error (m, k + 1)
  | .ok scores_only =>
    let k2 := k + 1
    let sp := pyOrOpt (_safe_json_parse scores_only) (.obj [])
    let step1 : OpM JVal :=
      match sp with
      | .obj _ => setScores4 parsed sp k2
      | _ => .ok parsed
    match step1 with
    | .error e => .error e
    | .ok parsed2 =>
      match o k2 with
      | .exc m => .error (m, k2 + 1)
      | .ok quick_match_only =>
        let k3 := k2 + 1
        let qmp := pyOrOpt (_safe_json_parse quick_match_only) (.obj [])
        let parsed3 :=
          match qmp with
          | .obj _ =>
            dset parsed2 "quick_match"
              ((dget (_coerce_scores_quickmatch (.obj [("quick_match", qmp)])) "quick_match").getD
                ((dget parsed2 "quick_match").getD .null))
          | _ => parsed2
        .ok (parsed3, k3)

/-- The main-request parse/repair step of `generate_llm_scores_quickmatch`
(before coercion). -/
def qmParsed1 (raw : String) (o : Oracle) : JVal × Nat :=
  let parsed := pyOrOpt (_safe_json_parse raw) (.obj [])
  if !_validate_scores_quickmatch parsed then
    let (r, k2) := _repair_json raw o 1
    (pyOrOpt r (.obj []), k2)
  else (parsed, 1)

/-- The `try` body of `generate_llm_scores_quickmatch`: main request with
repair, coercion, minimal-schema retry, then the final fallback block. -/
def qmBody (o : Oracle) : OpM (JVal × Nat × Bool) :=
  match o 0 with
  | .exc m => .error (m, 1)
  | .ok raw =>
    let pk := qmParsed1 raw o
    let parsed := _coerce_scores_quickmatch pk.1
    let step2 : OpM (JVal × Nat) :=
      if pyEqZero (atsOf parsed) && missing_all_qm parsed then qmMinRetry parsed o pk.2
      else .ok (parsed, pk.2)
    match step2 with
    | .error e => .error e
    | .ok pk2 =>
      if pyEqZero (atsOf pk2.1) && missing_all_qm pk2.1 then
        match qmFinalFallback pk2.1 o pk2.2 with
        | .error e => .error e
        | .ok pk3 => .ok (pk3.1, pk3.2, true)
      else .ok (pk2.1, pk2.2, false)

/-- Models `generate_llm_scores_quickmatch`: disabled short-circuit, the
cascade body, status selection and meta tagging; exceptions give the
error-meta record.  The status reads the final payload, which coincides
with the source's last-computed `missing_all`. -/
def generate_llm_scores_quickmatch (llmEnabled : Bool) (geminiModel : String)
    (cv_text jd_text : String) (o : Oracle) : QMRun :=
  if !llmEnabled then ⟨.obj [], 0, false⟩
  else
    match qmBody o with
    | .ok (parsed, k, fb) =>
      let missingAll := missing_all_qm parsed
      let status := if truthy (atsOf parsed) || !missingAll then "ok" else "partial"
      ⟨dset parsed "_meta" (metaObj geminiModel status), k, fb⟩
    | .error (msg, k) =>
      ⟨.obj [("_meta", metaErrObj geminiModel "error" (takeStr msg 200))], k, false⟩

/-- The generic pad categories appended when fewer than 6 were parsed. -/
def catPads : List String :=
  ["General Skills", "Domain Knowledge", "Tools", "Soft Skills", "Process", "Leadership"]

/-- `line.split(":", 1)[-1]`: the text after the first colon, or the whole
line when there is none. -/
def afterColon (line : String) : String :=
  let cs := line.toList
  match List.findIdx? (· == ':') cs with
  | some i => String.mk (cs.drop (i + 1))
  | none => line

/-- Scan the matched/missing answer line by line, the last labelled line
winning, as in the source loop. -/
def matchLines (match_text : String) : List String × List String :=
  (splitLinesLF match_text).foldl
    (fun (mm : List String × List String) line =>
      let mm := if takeStr (upperStr line) 7 == "MATCHED" then
          (_split_items (afterColon line) (some 6), mm.2) else mm
      let mm := if takeStr (upperStr line) 7 == "MISSING" then
          (mm.1, _split_items (afterColon line) (some 6)) else mm
      mm)
    ([], [])

/-- The plain-text fallback block of `generate_llm_categories` (its inner
`try`): three narrow calls building 6 padded categories, matched/missing
and bonus lists; any exception inside yields an empty dict. -/
def catFallback (cv_text : String) (o : Oracle) (k : Nat) : JVal × Nat :=
  match o k with
  | .exc _ => (.obj [], k + 1)
  | .ok cats_text =>
    let k := k + 1
    let key_categories := _split_items cats_text (some 6)
    let key_categories :=
      if key_categories.length < 6 then
        catPads.foldl (fun kc p =>
          if kc.length ≥ 6 then kc
          else if kc.contains p then kc
          else kc ++ [p]) key_categories
      else key_categories
    match o k with
    | .exc _ => (.obj [], k + 1)
    | .ok match_text =>
      let k := k + 1
      let mm := matchLines match_text
      let mm :=
        if mm.1.isEmpty && mm.2.isEmpty then
          let cv_lower := lowerStr cv_text
          let matched := key_categories.filter (fun c => pyIn (lowerStr c) cv_lower)
          let missing := key_categories.filter (fun c => !matched.contains c)
          (matched, missing)
        else mm
      match o k with
      | .exc _ => (.obj [], k + 1)
      | .ok bonus_text =>
        let k := k + 1
        let bonus := _split_items bonus_text (some 3)
        (.obj [("key_categories", .list ((key_categories.take 6).map JVal.str)),
               ("matched_categories", .list (mm.1.map JVal.str)),
               ("missing_categories", .list (mm.2.map JVal.str)),
               ("bonus_categories", .list (bonus.map JVal.str))], k)

/-- The `try` body of `generate_llm_categories`: main request, repair pass,
then the plain-text fallback cascade. -/
def catBody (cv_text : String) (o : Oracle) : OpM (JVal × Nat) :=
  match o 0 with
  | .exc m => .error (m, 1)
  | .ok raw =>
    let parsed := pyOrOpt (_safe_json_parse raw) (.obj [])
    let pk :=
      if !_validate_categories parsed then
        let (r, k2) := _repair_json raw o 1
        (pyOrOpt r (.obj []), k2)
      else (parsed, 1)
    let pk :=
      if !_validate_categories pk.1 then catFallback cv_text o pk.2
      else pk
    .ok pk

/-- Models `generate_llm_categories`: disabled short-circuit, cascade body,
final validation gate, meta tagging. -/
def generate_llm_categories (llmEnabled : Bool) (geminiModel cv_text jd_text : String)
    (o : Oracle) : JVal × Nat :=
  if !llmEnabled then (.obj [], 0)
  else
    match catBody cv_text o with
    | .ok (parsed, k) =>
      if !_validate_categories parsed then
        (.obj [("_meta",
          metaErrObj geminiModel "empty" "No JSON parsed from Gemini response")], k)
      else (dset parsed "_meta" (metaObj geminiModel "ok"), k)
    | .error (msg, k) =>
      (.obj [("_meta", metaErrObj geminiModel "error" (takeStr msg 200))], k)

/-- Models `generate_llm_skill_groups`: disabled and empty-categories
short-circuits, one request with repair, validation gate, meta tagging. -/
def generate_llm_skill_groups (llmEnabled : Bool) (geminiModel cv_text jd_text : String)
    (key_categories : List JVal) (o : Oracle) : JVal × Nat :=
  if !llmEnabled then (.obj [], 0)
  else if key_categories.isEmpty then (.obj [], 0)
  else
    match o 0 with
    | .exc msg => (.obj [("_meta", metaErrObj geminiModel "error" (takeStr msg 200))], 1)
    | .ok raw =>
      let parsed := pyOrOpt (_safe_json_parse raw) (.obj [])
      let (parsed, k) :=
        if !_validate_skill_groups parsed key_categories then
          let (r, k2) := _repair_json raw o 1
          (pyOrOpt r (.obj []), k2)
        else (parsed, 1)
      if !_validate_skill_groups parsed key_categories then
        (.obj [("_meta",
          metaErrObj geminiModel "empty" "No JSON parsed from Gemini response")], k)
      else (dset parsed "_meta" (metaObj geminiModel "ok"), k)

/-- The `.get(...).get(...)` chains building the analysis summary raise
exactly when a present key holds a non-dict value (the summary itself only
feeds the prompt, which the oracle abstracts). -/
def summaryExc (res : JVal) : Bool :=
  match res with
  | .obj _ =>
    (match dget res "skill_match" with
     | some (.obj _) => false
     | none => false
     | some _ => true) ||
    (match dget res "quick_match" with
     | some (.obj _) => false
     | none => false
     | some _ => true) ||
    (match dget res "experience_analysis" with
     | some (.obj _) => false
     | none => false
     | some _ => true)
  | _ => true

/-- Models `generate_llm_insights`: disabled short-circuit, summary
construction (whose failures the outer `except` turns into an empty dict),
one request with repair, validation gate, then the per-field validated
rebuild — which never attaches a meta record. -/
def generate_llm_insights (llmEnabled : Bool) (cv_text jd_text : String)
    (results : Option JVal) (o : Oracle) : JVal × Nat :=
  if !llmEnabled then (.obj [], 0)
  else
    let res := match results with
      | some v => pyOr v (.obj [])
      | none => .obj []
    if summaryExc res then (.obj [], 0)
    else
      match o 0 with
      | .exc _ => (.obj [], 1)
      | .ok raw =>
        let llm_data := pyOrOpt (_safe_json_parse raw) (.obj [])
        let (llm_data, k) :=
          if !_validate_insights llm_data then
            let (r, k2) := _repair_json raw o 1
            (pyOrOpt r (.obj []), k2)
          else (llm_data, 1)
        if !_validate_insights llm_data then (.obj [], k)
        else
          let validated : List (String × JVal) := []
          let validated := match dget llm_data "profile_summary" with
            | some (v@(.str _)) => validated ++ [("profile_summary", v)]
            | _ => validated
          let validated := match dget llm_data "quick_match_insights" with
            | some (v@(.obj _)) => validated ++ [("quick_match_insights", v)]
            | _ => validated
          let validated := match dget llm_data "enhanced_suggestions" with
            | some (v@(.list _)) => validated ++ [("enhanced_suggestions", v)]
            | _ => validated
          let validated := match dget llm_data "working_well" with
            | some (v@(.list _)) => validated ++ [("working_well", v)]
            | _ => validated
          let validated := match dget llm_data "needs_improvement" with
            | some (v@(.list _)) => validated ++ [("needs_improvement", v)]
            | _ => validated
          let validated := match dget llm_data "ats_score" with
            | some (.int n) => validated ++ [("ats_score", .int (min 100 (max 0 n)))]
            | some (.rat q) => validated ++ [("ats_score", .int (min 100 (max 0 (pyTrunc q))))]
            | some (.bool b) =>
              validated ++ [("ats_score", .int (min 100 (max 0 (if b then (1 : Int) else 0))))]
            | _ => validated
          let validated := match dget llm_data "skill_gap_tips" with
            | some (v@(.obj _)) => validated ++ [("skill_gap_tips", v)]
            | _ => validated
          (.obj validated, k)

/-- Python `s.get('title', '').lower().strip()`, which raises when the
title value is not a string, and raises on non-dict suggestions. -/
def lowerTitle (s : JVal) : Except String String :=
  match s with
  | .obj _ =>
    match dget s "title" with
    | none => .ok ""
    | some (.str t) => .ok (pyStrip (lowerStr t))
    | some _ => .error "AttributeError: lower"
  | _ => .error "AttributeError: get"

/-- Collect the lowercased stripped titles of the dict-valued advisory
suggestions (the set comprehension guarded by `isinstance(s, dict)`). -/
def collectTitles : List JVal → Except String (List String)
  | [] => .ok []
  | s :: rest =>
    match s with
    | .obj _ =>
      match lowerTitle s with
      | .error e => .error e
      | .ok t =>
        match collectTitles rest with
        | .error e => .error e
        | .ok ts => .ok (t :: ts)
    | _ => collectTitles rest

/-- The retention loop over the base suggestions: keep an uncovered
`missing_skills`/`missing_verbs` suggestion at low priority. -/
def retainedLoop (llm_titles : List String) : List JVal → Except String (List JVal)
  | [] => .ok []
  | base :: rest =>
    match lowerTitle base with
    | .error e => .error e
    | .ok base_title =>
      let covered := llm_titles.any (fun lt => pyIn base_title lt || pyIn lt base_title)
      let typeOk := match dget base "type" with
        | some (.str t) => t == "missing_skills" || t == "missing_verbs"
        | _ => false
      match retainedLoop llm_titles rest with
      | .error e => .error e
      | .ok acc =>
        .ok (if !covered && typeOk then dset base "priority" (.str "low") :: acc else acc)

/-- Models `merge_suggestions` (the in-place mutation of the base list is
rendered as returning the final list): advisory titles are collected,
uncovered `missing_skills`/`missing_verbs` base suggestions are retained at
low priority, the list is rebuilt from the advisory suggestions (first two
high priority) followed by the retained ones. -/
def merge_suggestions (base_suggestions llm_suggestions : List JVal) :
    Except String (List JVal) :=
  if llm_suggestions.isEmpty then .ok base_suggestions
  else
    match collectTitles llm_suggestions with
    | .error e => .error e
    | .ok llm_titles =>
      match retainedLoop llm_titles base_suggestions with
      | .error e => .error e
      | .ok retained_nlp =>
        let news := llm_suggestions.foldl
          (fun (acc : List JVal) s =>
            match s with
            | .obj _ =>
              if truthy ((dget s "title").getD .null) then
                acc ++ [JVal.obj [
                  ("type", .str "recruiter_insight"),
                  ("title", (dget s "title").getD (.str "")),
                  ("body", (dget s "body").getD (.str "")),
                  ("examples", (dget s "examples").getD (.list [])),
                  ("priority", .str (if acc.length < 2 then "high" else "medium"))]]
              else acc
            | _ => acc) []
        .ok (news ++ retained_nlp)

/-- Models `LLM_ENABLED = bool(GEMINI_API_KEY)`. -/
def LLM_ENABLED (geminiApiKey : String) : Bool := geminiApiKey != ""

/-- Written from the spec: category names of a list-valued field, viewed as
a set of strings (non-string entries are ignored). -/
def catNames (d : JVal) (key : String) : List String :=
  match dget d key with
  | some (.list xs) => xs.filterMap fun x =>
      match x with
      | .str s => some s
      | _ => none
  | _ => []

/-- Written from the spec: the category invariant
`set(matched) | set(missing) == set(key_categories)` together with
`len(key_categories) == 6`. -/
def categoryUnionInvariant (d : JVal) : Bool :=
  let keys := catNames d "key_categories"
  let mm := catNames d "matched_categories" ++ catNames d "missing_categories"
  keys.all (fun c => mm.contains c) && mm.all (fun c => keys.contains c) &&
    (match dget d "key_categories" with
     | some (.list xs) => xs.length == 6
     | _ => false)

/-- An output of category extraction that carries category data rather than
only the meta record. -/
def carriesCategoryData (d : JVal) : Bool :=
  (dget d "key_categories").isSome

/-- A slot holding an integer value. -/
def isIntSlot : Option JVal → Bool
  | some (.int _) => true
  | _ => false

/-- A slot holding an integer within `[0, 100]`. -/
def isClampedSlot : Option JVal → Bool
  | some (.int n) => decide (0 ≤ n) && decide (n ≤ 100)
  | _ => false

/-- Written from the spec: the four score slots hold integers. -/
def scoresIntShape (s : JVal) : Bool :=
  isIntSlot (dget s "ats") && isIntSlot (dget s "text_similarity") &&
  isIntSlot (dget s "skill_match") && isIntSlot (dget s "verb_alignment")

/-- Written from the spec: the four score slots hold integers clamped to
`[0, 100]`. -/
def scoresClamped (s : JVal) : Bool :=
  isClampedSlot (dget s "ats") && isClampedSlot (dget s "text_similarity") &&
  isClampedSlot (dget s "skill_match") && isClampedSlot (dget s "verb_alignment")

/-- Written from the spec: a quick-match field dict with string values and
an allowed match-quality label. -/
def qmFieldSpec : Option JVal → Bool
  | some (f@(.obj _)) =>
    (match dget f "cv_value" with | some (.str _) => true | _ => false) &&
    (match dget f "jd_value" with | some (.str _) => true | _ => false) &&
    (match dget f "match_quality" with
     | some (.str s) =>
       s == "Strong Match" || s == "Good Match" || s == "Weak Match" || s == "Not a Match"
     | _ => false)
  | _ => false

/-- Written from the spec: a keyword slot holding a list of at most 12
strings. -/
def kwSpec : Option JVal → Bool
  | some (.list xs) =>
    decide (xs.length ≤ 12) &&
    xs.all (fun x => match x with | .str _ => true | _ => false)
  | _ => false

/-- Written from the spec: the full coercer target shape — scores as
integers, the four quick-match fields complete, bounded keyword lists. -/
def coercerShapeSpec (d : JVal) : Bool :=
  (match dget d "scores" with
   | some s => scoresIntShape s && (match s with | .obj _ => true | _ => false)
   | _ => false) &&
  (match dget d "quick_match" with
   | some (q@(.obj _)) =>
     qmFieldSpec (dget q "experience") && qmFieldSpec (dget q "education") &&
     qmFieldSpec (dget q "skills") && qmFieldSpec (dget q "location")
   | _ => false) &&
  (match dget d "keywords" with
   | some (k@(.obj _)) => kwSpec (dget k "jd") && kwSpec (dget k "cv")
   | _ => false)

/-- Written from the spec: a ModelCallMeta record under `_meta` with
`enabled`, `model` and a status from the allowed enumeration. -/
def hasValidMeta (d : JVal) : Bool :=
  match dget d "_meta" with
  | some m =>
    (match dget m "enabled" with | some (.bool _) => true | _ => false) &&
    (match dget m "model" with | some (.str _) => true | _ => false) &&
    (match dget m "status" with
     | some (.str s) =>
       s == "pending" || s == "ok" || s == "partial" || s == "empty" || s == "error"
     | _ => false)
  | none => false

/-- The text of an Ok response (empty for errors and exceptions). -/
def okText (r : HttpResp) : String :=
  match r with
  | .ok _ parts => String.join parts
  | _ => ""

/-- The loop's `best_text` after scanning the given candidates: the longest
Ok-response text, earlier candidates winning ties. -/
def bestTextFold (respOf : String → HttpResp) (cands : List String) (b : String) : String :=
  cands.foldl (fun best m =>
    let t := okText (respOf m)
    if t.length > best.length then t else best) b

/-- A response that advances the candidate loop without a normal return: a
404, a transport exception, or truncated output (token-limit finish reason
with text below the minimum-character threshold). -/
def advances (minChars : Nat) : HttpResp → Bool
  | .err status _ => status == 404
  | .exc _ => true
  | .ok finish parts =>
    finish == some "MAX_TOKENS" && decide ((String.join parts).length < minChars)

/-- Concrete response map with a non-404 error on the first model and a
normal success on the second. -/
def respC1 : String → HttpResp := fun m =>
  if m == "m1" then .err 500 "quota exceeded" else .ok none ["OUT"]

/-- Concrete response map: 404 on model a, truncated output on the rest. -/
def respC5 : String → HttpResp := fun m =>
  if m == "a" then .err 404 "not found" else .ok (some "MAX_TOKENS") ["xy"]

/-- Oracle returning a parseable category payload that passes the
structural validator while matched and missing do not cover the keys. -/
def oC2 : Oracle := fun _ => .ok
  "\x7b\"key_categories\": [\"A\",\"B\",\"C\",\"D\",\"E\",\"F\"], \"matched_categories\": [\"A\"], \"missing_categories\": [], \"bonus_categories\": []\x7d"

/-- Oracle driving `generate_llm_scores_quickmatch` into its final
scores-only fallback with an out-of-range score value. -/
def oC3 : Oracle := fun k =>
  match k with
  | 0 => .ok "\x7b\x7d"
  | 1 => .exc "boom"
  | 2 => .ok "\x7b\x7d"
  | 3 => .exc "boom"
  | 4 => .ok "\x7b\"ats\": 500, \"text_similarity\": 1, \"skill_match\": 2, \"verb_alignment\": 3\x7d"
  | 5 => .ok "\x7b\x7d"
  | _ => .exc "never"

/-- Oracle answering the main scores/quick-match request with a fully valid
payload (no fallback needed). -/
def oC3W : Oracle := fun _ => .ok
  "\x7b\"scores\": \x7b\"ats\": 50, \"text_similarity\": 40, \"skill_match\": 30, \"verb_alignment\": 20\x7d, \"quick_match\": \x7b\"experience\": \x7b\"cv_value\": \"5 years\", \"jd_value\": \"3 years\", \"match_quality\": \"Strong Match\"\x7d, \"education\": \x7b\"cv_value\": \"BSc\", \"jd_value\": \"BSc\", \"match_quality\": \"Good Match\"\x7d, \"skills\": \x7b\"cv_value\": \"Python\", \"jd_value\": \"Python\", \"match_quality\": \"Strong Match\"\x7d, \"location\": \x7b\"cv_value\": \"Pune\", \"jd_value\": \"Pune\", \"match_quality\": \"Good Match\"\x7d\x7d, \"keywords\": \x7b\"jd\": [\"python\"], \"cv\": [\"python\"]\x7d\x7d"

/-- The scores sub-dict produced by `oC3W`'s run. -/
def sC3W : JVal := .obj [("ats", .int 50), ("text_similarity", .int 40),
  ("skill_match", .int 30), ("verb_alignment", .int 20)]

/-- The concrete base suggestion list of the merge test. -/
def baseC4 : List JVal :=
  [.obj [("title", .str "Add Python"), ("type", .str "missing_skills")]]

/-- The concrete advisory suggestion list of the merge test. -/
def llmC4 : List JVal :=
  [.obj [("title", .str "Learn Python scripting")]]

/-- The list `merge_suggestions` actually produces on the merge test. -/
def mergedC4 : List JVal :=
  [.obj [("type", .str "recruiter_insight"), ("title", .str "Learn Python scripting"),
         ("body", .str ""), ("examples", .list []), ("priority", .str "high")],
   .obj [("title", .str "Add Python"), ("type", .str "missing_skills"),
         ("priority", .str "low")]]

/-- Oracle answering the insights request with a payload passing the
insights validator. -/
def oC8 : Oracle := fun _ => .ok
  "\x7b\"profile_summary\": \"ok\", \"enhanced_suggestions\": [], \"working_well\": [], \"needs_improvement\": []\x7d"

/-- Oracle raising a transport exception on every call. -/
def oExc : Oracle := fun _ => .exc "transport failure"

/-- Invariant carried through the scores/quick-match cascade: the payload
is a dict whose scores slot holds the four integer fields, clamped when
`strict`. -/
def ScoresInv (strict : Bool) (p : JVal) : Prop :=
  (∃ kvs, p = .obj kvs) ∧
  ∃ s, dget p "scores" = some s ∧ scoresIntShape s = true ∧
    (strict = true → scoresClamped s = true)

theorem jget_jset_self (kvs : List (String × JVal)) (k : String) (v : JVal) :
    jget (jset kvs k v) k = some v := by
  induction kvs with
  | nil => simp [jset, jget]
  | cons kv rest ih =>
    obtain ⟨k2, w⟩ := kv
    by_cases h : k2 = k
    · simp [jset, jget, h]
    · simp [jset, jget, h, ih]

theorem jget_jset_ne (kvs : List (String × JVal)) (k k2 : String) (v : JVal)
    (h : k2 ≠ k) : jget (jset kvs k v) k2 = jget kvs k2 := by
  induction kvs with
  | nil => simp [jset, jget, Ne.symm h]
  | cons kv rest ih =>
    obtain ⟨k3, w⟩ := kv
    by_cases h3 : k3 = k
    · subst h3
      simp [jset, jget, Ne.symm h]
    · simp [jset, jget, h3, ih]

theorem dget_dset_self (kvs : List (String × JVal)) (k : String) (v : JVal) :
    dget (dset (.obj kvs) k v) k = some v := by
  simp [dset, dget, jget_jset_self]

theorem dget_dset_ne (p : JVal) (k k2 : String) (v : JVal) (h : k2 ≠ k) :
    dget (dset p k v) k2 = dget p k2 := by
  cases p <;> simp [dset, dget]
  exact jget_jset_ne _ _ _ _ h

theorem num_bounds (v : Option JVal) : 0 ≤ _num v ∧ _num v ≤ 100 := by
  unfold _num
  rcases v with _ | v
  · simp
  · cases v <;> simp <;> try omega
    split <;> omega

theorem num_idem (v : Option JVal) : _num (some (.int (_num v))) = _num v := by
  have h := num_bounds v
  show max 0 (min 100 (_num v)) = _num v
  omega

theorem qmFieldSpec_obj (a b m : String)
    (hm : (m == "Strong Match" || m == "Good Match" || m == "Weak Match" ||
      m == "Not a Match") = true) :
    qmFieldSpec (some (.obj [("cv_value", .str a), ("jd_value", .str b),
      ("match_quality", .str m)])) = true := by
  simp [qmFieldSpec, dget, jget, hm]

theorem qm_item_eq (r : Option JVal) : ∃ a b m,
    _qm_item r = .obj [("cv_value", .str a), ("jd_value", .str b),
      ("match_quality", .str m)] ∧
    (m == "Strong Match" || m == "Good Match" || m == "Weak Match" ||
      m == "Not a Match") = true := by
  unfold _qm_item
  refine ⟨_, _, _, rfl, ?_⟩
  by_cases h : (pystr (((dget (match r with
      | some (r@(.obj _)) => r
      | _ => .obj []) "match_quality").getD (.str "Not a Match"))) == "Strong Match" ||
      pystr (((dget (match r with
      | some (r@(.obj _)) => r
      | _ => .obj []) "match_quality").getD (.str "Not a Match"))) == "Good Match" ||
      pystr (((dget (match r with
      | some (r@(.obj _)) => r
      | _ => .obj []) "match_quality").getD (.str "Not a Match"))) == "Weak Match" ||
      pystr (((dget (match r with
      | some (r@(.obj _)) => r
      | _ => .obj []) "match_quality").getD (.str "Not a Match"))) == "Not a Match") = true
  · simpa [h] using h
  · simp [h]

theorem qm_item_spec (r : Option JVal) : qmFieldSpec (some (_qm_item r)) = true := by
  obtain ⟨a, b, m, heq, hm⟩ := qm_item_eq r
  rw [heq]
  exact qmFieldSpec_obj a b m hm

theorem kw_spec_take (l : List JVal) :
    kwSpec (some (.list (((l.filter isKwElem).map (fun x => JVal.str (pystr x))).take 12))) =
      true := by
  unfold kwSpec
  rw [Bool.and_eq_true]
  constructor
  · simpa using List.length_take_le 12 _
  · rw [List.all_eq_true]
    intro x hx
    have hx2 := List.take_subset 12 _ hx
    obtain ⟨y, _, rfl⟩ := List.mem_map.mp hx2
    rfl

theorem qm_item_idem (r : Option JVal) : _qm_item (some (_qm_item r)) = _qm_item r := by
  obtain ⟨a, b, m, heq, hm⟩ := qm_item_eq r
  rw [heq]
  unfold _qm_item
  simp [dget, jget, pystr, hm]

theorem kw_idem (l : List JVal) :
    (((((l.filter isKwElem).map (fun x => JVal.str (pystr x))).take 12).filter
        isKwElem).map (fun x => JVal.str (pystr x))).take 12 =
      ((l.filter isKwElem).map (fun x => JVal.str (pystr x))).take 12 := by
  set J := ((l.filter isKwElem).map (fun x => JVal.str (pystr x))).take 12 with hJ
  have hstr : ∀ x ∈ J, ∃ s, x = JVal.str s := by
    intro x hx
    have hx2 := List.take_subset 12 _ (hJ ▸ hx)
    obtain ⟨y, _, rfl⟩ := List.mem_map.mp hx2
    exact ⟨pystr y, rfl⟩
  have hfil : J.filter isKwElem = J := by
    rw [List.filter_eq_self]
    intro a ha
    obtain ⟨s, rfl⟩ := hstr a ha
    rfl
  have hmap : J.map (fun x => JVal.str (pystr x)) = J := by
    have := List.map_congr_left (l := J) (f := fun x => JVal.str (pystr x)) (g := id)
      (by intro a ha
          obtain ⟨s, rfl⟩ := hstr a ha
          rfl)
    simpa using this
  have hlen : J.length ≤ 12 := by
    rw [hJ]
    exact List.length_take_le 12 _
  rw [hfil, hmap, List.take_of_length_le hlen]

/-- C6: `_coerce_scores_quickmatch` is total and always produces the full
target shape: integer score slots, complete quick-match fields with string
values and an allowed match-quality label, and keyword lists of at most 12
strings — for every input value. -/
theorem c6_coercer_full_shape (d : JVal) :
    coercerShapeSpec (_coerce_scores_quickmatch d) = true := by
  unfold _coerce_scores_quickmatch coercerShapeSpec
  simp only [dget, jget, reduceIte]
  simp [scoresIntShape, isIntSlot, dget, jget, qm_item_spec, kw_spec_take]

theorem scoresIntShape_obj (s : JVal) (h : scoresIntShape s = true) :
    ∃ kvs, s = .obj kvs := by
  cases s <;> simp_all [scoresIntShape, isIntSlot, dget]

theorem isIntSlot_dget_dset (kvs : List (String × JVal)) (key f : String) (n : Int)
    (h : isIntSlot (dget (.obj kvs) f) = true) :
    isIntSlot (dget (dset (.obj kvs) key (.int n)) f) = true := by
  by_cases hf : f = key
  · subst hf
    rw [dget_dset_self]
    rfl
  · rw [dget_dset_ne _ _ _ _ hf]
    exact h

theorem scoresIntShape_dset (s : JVal) (key : String) (n : Int)
    (h : scoresIntShape s = true) : scoresIntShape (dset s key (.int n)) = true := by
  obtain ⟨kvs, rfl⟩ := scoresIntShape_obj s h
  simp only [scoresIntShape, Bool.and_eq_true] at h ⊢
  obtain ⟨⟨⟨h1, h2⟩, h3⟩, h4⟩ := h
  exact ⟨⟨⟨isIntSlot_dget_dset _ _ _ _ h1, isIntSlot_dget_dset _ _ _ _ h2⟩,
    isIntSlot_dget_dset _ _ _ _ h3⟩, isIntSlot_dget_dset _ _ _ _ h4⟩

theorem coerce_obj (d : JVal) : ∃ kvs, _coerce_scores_quickmatch d = .obj kvs :=
  ⟨_, rfl⟩

theorem coerce_scores (d : JVal) :
    ∃ s, dget (_coerce_scores_quickmatch d) "scores" = some s ∧
      scoresIntShape s = true ∧ scoresClamped s = true := by
  refine ⟨_, rfl, ?_, ?_⟩
  · simp [scoresIntShape, isIntSlot, dget, jget]
  · simp [scoresClamped, isClampedSlot, dget, jget, num_bounds]

theorem coerce_inv (d : JVal) : ScoresInv true (_coerce_scores_quickmatch d) := by
  obtain ⟨s, hs, h1, h2⟩ := coerce_scores d
  exact ⟨coerce_obj d, s, hs, h1, fun _ => h2⟩

theorem inv_weaken (p : JVal) (h : ScoresInv true p) : ScoresInv false p := by
  obtain ⟨hobj, s, hs, h1, _⟩ := h
  exact ⟨hobj, s, hs, h1, by simp⟩

theorem inv_dset (b : Bool) (p : JVal) (key : String) (v : JVal) (hk : key ≠ "scores")
    (h : ScoresInv b p) : ScoresInv b (dset p key v) := by
  obtain ⟨⟨kvs, rfl⟩, s, hs, h1, h2⟩ := h
  refine ⟨⟨_, rfl⟩, s, ?_, h1, h2⟩
  rw [dget_dset_ne _ _ _ _ (Ne.symm hk)]
  exact hs

theorem inv_setScore (p : JVal) (key : String) (n : Int)
    (h : ScoresInv false p) : ScoresInv false (setScore p key n) := by
  obtain ⟨⟨kvs, rfl⟩, s, hs, h1, _⟩ := h
  simp only [setScore, hs, Option.getD_some]
  exact ⟨⟨_, rfl⟩, dset s key (.int n), dget_dset_self kvs "scores" _,
    scoresIntShape_dset s key n h1, by simp⟩

theorem setScores4_inv (p sp : JVal) (k : Nat) (p2 : JVal)
    (h : setScores4 p sp k = .ok p2) (hp : ScoresInv false p) :
    ScoresInv false p2 := by
  unfold setScores4 at h
  split at h
  · simp at h
  split at h
  · simp at h
  split at h
  · simp at h
  split at h
  · simp at h
  simp only [Except.ok.injEq] at h
  subst h
  exact inv_setScore _ _ _ (inv_setScore _ _ _ (inv_setScore _ _ _ (inv_setScore _ _ _ hp)))

theorem qmMinRetry_inv (parsed : JVal) (o : Oracle) (k : Nat) (pr : JVal × Nat)
    (h : qmMinRetry parsed o k = .ok pr) : ScoresInv true pr.1 := by
  unfold qmMinRetry at h
  split at h
  · simp at h
  · simp only [Except.ok.injEq] at h
    subst h
    exact inv_dset true _ "keywords" _ (by decide) (coerce_inv _)

theorem qmFinalFallback_inv (parsed : JVal) (o : Oracle) (k : Nat) (pr : JVal × Nat)
    (h : qmFinalFallback parsed o k = .ok pr) (hp : ScoresInv false parsed) :
    ScoresInv false pr.1 := by
  unfold qmFinalFallback at h
  split at h
  · simp at h
  simp only [] at h
  split at h
  · simp at h
  rename_i parsed2 heq
  have hp2 : ScoresInv false parsed2 := by
    split at heq
    · exact setScores4_inv _ _ _ _ heq hp
    · simp only [Except.ok.injEq] at heq
      subst heq
      exact hp
  split at h
  · simp at h
  · simp only [Except.ok.injEq] at h
    subst h
    split
    · exact inv_dset false _ "quick_match" _ (by decide) hp2
    · exact hp2

theorem qmTail_inv (pk2 : JVal × Nat) (o : Oracle) (p : JVal) (k : Nat) (fb : Bool)
    (h : (if (pyEqZero (atsOf pk2.1) && missing_all_qm pk2.1) = true then
            match qmFinalFallback pk2.1 o pk2.2 with
            | .error e => .error e
            | .ok pk3 => .ok (pk3.1, pk3.2, true)
          else .ok (pk2.1, pk2.2, false)) = Except.ok (p, k, fb))
    (hp : ScoresInv true pk2.1) :
    ScoresInv false p ∧ (fb = false → ScoresInv true p) := by
  split at h
  · split at h
    · simp at h
    · rename_i pk3 heq3
      simp only [Except.ok.injEq, Prod.mk.injEq] at h
      obtain ⟨hp1, _, hfb⟩ := h
      subst hp1
      subst hfb
      refine ⟨qmFinalFallback_inv _ _ _ _ heq3 (inv_weaken _ hp), ?_⟩
      intro hh
      exact absurd hh (by decide)
  · simp only [Except.ok.injEq, Prod.mk.injEq] at h
    obtain ⟨hp1, _, hfb⟩ := h
    subst hp1
    subst hfb
    exact ⟨inv_weaken _ hp, fun _ => hp⟩

theorem qmBody_inv (o : Oracle) (p : JVal) (k : Nat) (fb : Bool)
    (h : qmBody o = .ok (p, k, fb)) :
    ScoresInv false p ∧ (fb = false → ScoresInv true p) := by
  unfold qmBody at h
  split at h
  · simp at h
  simp only [] at h
  split at h
  · simp at h
  · rename_i pk2 heq
    have hpk2 : ScoresInv true pk2.1 := by
      split at heq
      · exact qmMinRetry_inv _ _ _ _ heq
      · simp only [Except.ok.injEq] at heq
        subst heq
        exact coerce_inv _
    exact qmTail_inv pk2 o p k fb h hpk2

/-- C3 amended: every scores sub-dict of a `generate_llm_scores_quickmatch`
result holds the four fields as integers, and they are clamped to
`[0, 100]` whenever the final scores-only fallback block did not run (the
unclamped `int()` conversions live only in that block). -/
theorem c3_scores_ints_clamped_off_final_fallback (gm cv jd : String) (o : Oracle)
    (s : JVal)
    (h : dget (generate_llm_scores_quickmatch true gm cv jd o).out "scores" = some s) :
    scoresIntShape s = true ∧
    ((generate_llm_scores_quickmatch true gm cv jd o).finalFallback = false →
      scoresClamped s = true) := by
  unfold generate_llm_scores_quickmatch at h ⊢
  rw [if_neg (by decide)] at h ⊢
  revert h
  cases hb : qmBody o with
  | error e =>
    intro h
    simp [dget, jget] at h
  | ok v =>
    intro h
    obtain ⟨p1, k1, fb1⟩ := v
    simp only [] at h ⊢
    rw [dget_dset_ne _ _ _ _ (by decide)] at h
    have hinv := qmBody_inv o p1 k1 fb1 hb
    obtain ⟨⟨_, s0, hs0, hshape0, _⟩, hstrict⟩ := hinv
    rw [h] at hs0
    injection hs0 with hss
    subst hss
    refine ⟨hshape0, ?_⟩
    intro hfb
    obtain ⟨_, s1, hs1, _, hclamp⟩ := hstrict hfb
    rw [h] at hs1
    injection hs1 with hss1
    subst hss1
    exact hclamp rfl

/-- Witness for the amended C3 at a concrete input where the main request
succeeds and the final fallback does not run. -/
theorem c3_scores_witness :
    dget (generate_llm_scores_quickmatch true "m" "cv" "jd" oC3W).out "scores" =
      some sC3W ∧
    scoresIntShape sC3W = true ∧ scoresClamped sC3W = true := by
  refine ⟨rfl, ?_, ?_⟩
  · exact (c3_scores_ints_clamped_off_final_fallback "m" "cv" "jd" oC3W sC3W rfl).1
  · exact (c3_scores_ints_clamped_off_final_fallback "m" "cv" "jd" oC3W sC3W rfl).2 rfl

theorem validate_categories_obj (p : JVal) (h : _validate_categories p = true) :
    ∃ kvs, p = .obj kvs := by
  cases p <;> simp_all [_validate_categories]

theorem validate_categories_dset_meta (p v : JVal) (h : _validate_categories p = true) :
    _validate_categories (dset p "_meta" v) = true := by
  obtain ⟨kvs, rfl⟩ := validate_categories_obj p h
  unfold _validate_categories at h ⊢
  simp only [dset, dget, List.all_cons, List.all_nil, Bool.and_eq_true] at h ⊢
  rw [jget_jset_ne _ _ _ _ (by decide), jget_jset_ne _ _ _ _ (by decide),
      jget_jset_ne _ _ _ _ (by decide), jget_jset_ne _ _ _ _ (by decide)]
  exact h

theorem validate_categories_keys (p : JVal) (h : _validate_categories p = true) :
    ∃ xs, dget p "key_categories" = some (.list xs) ∧ xs.length = 6 := by
  obtain ⟨kvs, rfl⟩ := validate_categories_obj p h
  unfold _validate_categories at h
  rw [Bool.and_eq_true] at h
  obtain ⟨h1, _⟩ := h
  split at h1
  · rename_i xs heq
    exact ⟨xs, heq, by simpa using h1⟩
  · simp at h1

/-- C2 amended: every output of `generate_llm_categories` that carries
category data satisfies exactly the structural validator — `key_categories`
has exactly 6 entries and the matched/missing/bonus fields are lists; the
set equality `matched ∪ missing = key_categories` is not enforced. -/
theorem c2_categories_validator_holds (enabled : Bool) (gm cv jd : String) (o : Oracle)
    (h : carriesCategoryData (generate_llm_categories enabled gm cv jd o).1 = true) :
    _validate_categories (generate_llm_categories enabled gm cv jd o).1 = true ∧
    ∃ xs, dget (generate_llm_categories enabled gm cv jd o).1 "key_categories" =
      some (.list xs) ∧ xs.length = 6 := by
  unfold generate_llm_categories at h ⊢
  by_cases he : (!enabled) = true
  · rw [if_pos he] at h
    simp [carriesCategoryData, dget, jget] at h
  · rw [if_neg he] at h ⊢
    revert h
    cases hcb : catBody cv o with
    | error e =>
      intro h
      simp [carriesCategoryData, dget, jget] at h
    | ok v =>
      intro h
      obtain ⟨p1, k1⟩ := v
      simp only [] at h ⊢
      by_cases hv : (!_validate_categories p1) = true
      · rw [if_pos hv] at h
        simp [carriesCategoryData, dget, jget] at h
      · rw [if_neg hv] at h ⊢
        have hval : _validate_categories p1 = true := by simpa using hv
        simp only [] at h ⊢
        refine ⟨validate_categories_dset_meta p1 _ hval, ?_⟩
        obtain ⟨xs, hx, h6⟩ := validate_categories_keys p1 hval
        refine ⟨xs, ?_, h6⟩
        rw [dget_dset_ne _ _ _ _ (by decide)]
        exact hx

/-- Witness for the amended C2 at a concrete category-data output. -/
theorem c2_categories_validator_witness :
    carriesCategoryData (generate_llm_categories true "m" "cv" "jd" oC2).1 = true ∧
    _validate_categories (generate_llm_categories true "m" "cv" "jd" oC2).1 = true := by
  refine ⟨rfl, ?_⟩
  exact (c2_categories_validator_holds true "m" "cv" "jd" oC2 rfl).1

theorem validate_skill_groups_obj (p : JVal) (kc : List JVal)
    (h : _validate_skill_groups p kc = true) : ∃ kvs, p = .obj kvs := by
  cases p <;> simp_all [_validate_skill_groups]

theorem hasValidMeta_errObj (gm st e : String)
    (hst : (st == "pending" || st == "ok" || st == "partial" || st == "empty" ||
      st == "error") = true) :
    hasValidMeta (.obj [("_meta", metaErrObj gm st e)]) = true := by
  simp [hasValidMeta, metaErrObj, dget, jget, hst]

theorem hasValidMeta_dset (kvs : List (String × JVal)) (gm st : String)
    (hst : (st == "pending" || st == "ok" || st == "partial" || st == "empty" ||
      st == "error") = true) :
    hasValidMeta (dset (.obj kvs) "_meta" (metaObj gm st)) = true := by
  unfold hasValidMeta
  rw [dget_dset_self]
  simp [metaObj, dget, jget, hst]

/-- C8 amended: of the advisory sub-calls, `generate_llm_scores_quickmatch`
and `generate_llm_categories` always tag their result with a ModelCallMeta
record, and `generate_llm_skill_groups` does so whenever the key-category
list is non-empty; `extract_category_match` and `generate_llm_insights`
never attach one (see the counterexample). -/
theorem c8_meta_tagged_subcalls (gm cv jd : String) (kc : List JVal)
    (o1 o2 o3 : Oracle) (hk : kc ≠ []) :
    hasValidMeta (generate_llm_scores_quickmatch true gm cv jd o1).out = true ∧
    hasValidMeta (generate_llm_categories true gm cv jd o2).1 = true ∧
    hasValidMeta (generate_llm_skill_groups true gm cv jd kc o3).1 = true := by
  refine ⟨?_, ?_, ?_⟩
  · unfold generate_llm_scores_quickmatch
    rw [if_neg (by decide)]
    cases hb : qmBody o1 with
    | error e =>
      simp only []
      exact hasValidMeta_errObj gm "error" _ (by decide)
    | ok v =>
      obtain ⟨p1, k1, fb1⟩ := v
      simp only []
      obtain ⟨⟨kvs, rfl⟩, _⟩ := (qmBody_inv o1 p1 k1 fb1 hb).1
      split
      · exact hasValidMeta_dset kvs gm "ok" (by decide)
      · exact hasValidMeta_dset kvs gm "partial" (by decide)
  · unfold generate_llm_categories
    rw [if_neg (by decide)]
    cases hcb : catBody cv o2 with
    | error e =>
      simp only []
      exact hasValidMeta_errObj gm "error" _ (by decide)
    | ok v =>
      obtain ⟨p1, k1⟩ := v
      simp only []
      by_cases hv : (!_validate_categories p1) = true
      · rw [if_pos hv]
        exact hasValidMeta_errObj gm "empty" _ (by decide)
      · rw [if_neg hv]
        have hval : _validate_categories p1 = true := by simpa using hv
        obtain ⟨kvs, rfl⟩ := validate_categories_obj p1 hval
        exact hasValidMeta_dset kvs gm "ok" (by decide)
  · unfold generate_llm_skill_groups
    rw [if_neg (by decide)]
    cases kc with
    | nil => exact absurd rfl hk
    | cons a as =>
      rw [if_neg (by simp)]
      cases ho : o3 0 with
      | exc m =>
        simp only []
        exact hasValidMeta_errObj gm "error" _ (by decide)
      | ok raw =>
        simp only []
        split
        all_goals try split
        all_goals dsimp only
        all_goals first
          | exact hasValidMeta_errObj gm "empty" _ (by decide)
          | (rename_i hv
             obtain ⟨kvs, hkvs⟩ := validate_skill_groups_obj _ _ (by simpa using hv)
             rw [hkvs]
             exact hasValidMeta_dset kvs gm "ok" (by decide))

/-- Witness for the amended C8 at concrete inputs (transport failures on
every call, a one-element key-category list). -/
theorem c8_meta_tagged_witness :
    hasValidMeta (generate_llm_scores_quickmatch true "m" "cv" "jd" oExc).out = true ∧
    hasValidMeta (generate_llm_categories true "m" "cv" "jd" oExc).1 = true ∧
    hasValidMeta (generate_llm_skill_groups true "m" "cv" "jd" [.str "A"] oExc).1 = true :=
  c8_meta_tagged_subcalls "m" "cv" "jd" [.str "A"] oExc oExc oExc (by simp)

/-- C10: `_coerce_scores_quickmatch` is idempotent — applying the coercer
to its own output returns the output unchanged, for every input value. -/
theorem c10_coercer_idempotent (d : JVal) :
    _coerce_scores_quickmatch (_coerce_scores_quickmatch d) =
      _coerce_scores_quickmatch d := by
  unfold _coerce_scores_quickmatch
  simp only [dget, jget, reduceIte]
  simp [dget, jget, num_idem, qm_item_idem, kw_idem]

/-- C1: the claim says a non-404 unsuccessful response raises immediately
with no further candidates tried; in the code the `raise` is caught by its
own surrounding generic `except`, so after a 500 on the first model the
second model is still requested and its text returned.  This evaluation
exhibits that behaviour at a concrete input. -/
theorem c1_non404_advances_bug :
    (_call_gemini true ["m1", "m2"] respC1 180 none).attempts = ["m1", "m2"] ∧
    (_call_gemini true ["m1", "m2"] respC1 180 none).result = .ok "OUT" :=
  ⟨rfl, rfl⟩

/-- C2 counterexample: a category payload accepted by the validator and
returned with status ok whose matched and missing sets do not cover the
six key categories, refuting the union invariant as stated. -/
theorem c2_union_counterexample :
    carriesCategoryData (generate_llm_categories true "m" "cv" "jd" oC2).1 = true ∧
    categoryUnionInvariant (generate_llm_categories true "m" "cv" "jd" oC2).1 = false :=
  ⟨rfl, rfl⟩

/-- C3 counterexample: driving the cascade into the final scores-only
fallback stores the model's raw value 500 in the `ats` slot — an integer
outside `[0, 100]`, refuting the clamping claim on that path. -/
theorem c3_unclamped_counterexample :
    atsOf (generate_llm_scores_quickmatch true "gemini-2.0-flash" "cv" "jd" oC3).out =
      .int 500 ∧ (500 : Int) > 100 :=
  ⟨rfl, by decide⟩

/-- C4 counterexample: on the spec's own merge test the heuristic title
"add python" is not a substring of "learn python scripting" (nor vice
versa), so the base suggestion is retained and the result has two
suggestions, not exactly one. -/
theorem c4_merge_counterexample :
    merge_suggestions baseC4 llmC4 = .ok mergedC4 ∧ mergedC4.length ≠ 1 :=
  ⟨rfl, by decide⟩

/-- C4 amended: the merge keeps the advisory suggestion at priority high
followed by the uncovered heuristic `missing_skills` suggestion retained at
priority low. -/
theorem c4_merge_amended :
    merge_suggestions baseC4 llmC4 = .ok
      [.obj [("type", .str "recruiter_insight"), ("title", .str "Learn Python scripting"),
             ("body", .str ""), ("examples", .list []), ("priority", .str "high")],
       .obj [("title", .str "Add Python"), ("type", .str "missing_skills"),
             ("priority", .str "low")]] :=
  rfl

theorem call_loop_attempts_le (respOf : String → HttpResp) (minChars : Nat)
    (cands : List String) : ∀ (le : Option String) (b : String) (bm lw : Option String),
    (_call_gemini_loop respOf minChars cands le b bm lw).attempts.length ≤ cands.length := by
  induction cands with
  | nil =>
    intro le b bm lw
    unfold _call_gemini_loop
    split <;> simp
  | cons m rest ih =>
    intro le b bm lw
    cases h : respOf m with
    | ok finish parts =>
      simp only [_call_gemini_loop, h]
      split
      · simpa using ih _ _ _ _
      · simp
    | err status body =>
      simp only [_call_gemini_loop, h]
      split
      · simpa using ih _ _ _ _
      · simpa using ih _ _ _ _
    | exc msg =>
      simp only [_call_gemini_loop, h]
      simpa using ih _ _ _ _

/-- C7: `_candidate_models` always returns at most 6 model names, and the
candidate loop of `_call_gemini` issues at most 6 request attempts per
call, whatever the cache state, configured model, availability list and
response behaviour. -/
theorem c7_bounded_attempts (lastWorking : Option String) (geminiModel : String)
    (available : List String) (llmEnabled : Bool) (respOf : String → HttpResp)
    (minChars : Nat) (lwIn : Option String) :
    (_candidate_models lastWorking geminiModel available).length ≤ 6 ∧
    (_call_gemini llmEnabled (_candidate_models lastWorking geminiModel available)
      respOf minChars lwIn).attempts.length ≤ 6 := by
  have h6 : (_candidate_models lastWorking geminiModel available).length ≤ 6 := by
    unfold _candidate_models
    simpa using List.length_take_le 6 _
  refine ⟨h6, ?_⟩
  unfold _call_gemini
  split
  · simp
  · exact le_trans (call_loop_attempts_le _ _ _ _ _ _ _) h6

theorem call_loop_advancing (respOf : String → HttpResp) (minChars : Nat)
    (cands : List String) : ∀ (le : Option String) (b : String) (bm lw : Option String),
    (∀ m ∈ cands, advances minChars (respOf m) = true) →
    ((bestTextFold respOf cands b ≠ "" →
      (_call_gemini_loop respOf minChars cands le b bm lw).result =
        .ok (bestTextFold respOf cands b)) ∧
     (bestTextFold respOf cands b = "" →
      ∃ msg, (_call_gemini_loop respOf minChars cands le b bm lw).result = .error msg)) := by
  induction cands with
  | nil =>
    intro le b bm lw _
    unfold _call_gemini_loop bestTextFold
    constructor
    · intro hb
      have hb2 : (b != "") = true := by simpa using hb
      simp [hb2]
    · intro hb
      subst hb
      simp
  | cons m rest ih =>
    intro le b bm lw h
    have hm : advances minChars (respOf m) = true := h m (by simp)
    have hrest : ∀ x ∈ rest, advances minChars (respOf x) = true :=
      fun x hx => h x (by simp [hx])
    have hfold : bestTextFold respOf (m :: rest) b =
        bestTextFold respOf rest
          (if (okText (respOf m)).length > b.length then okText (respOf m) else b) := rfl
    cases hr : respOf m with
    | ok finish parts =>
      rw [hr] at hm
      simp only [advances] at hm
      rw [hfold, hr]
      simp only [_call_gemini_loop, hr, okText, hm, if_true, reduceIte]
      constructor
      · intro hb
        simpa using (ih _ _ _ _ hrest).1 hb
      · intro hb
        obtain ⟨msg, hmsg⟩ := (ih _ _ _ _ hrest).2 hb
        exact ⟨msg, by simpa using hmsg⟩
    | err status body =>
      rw [hr] at hm
      simp only [advances] at hm
      rw [hfold, hr]
      simp only [_call_gemini_loop, hr, okText]
      have hb' : (if (("" : String).length > b.length) then "" else b) = b := by simp
      rw [hb']
      simp only [hm, if_true, reduceIte]
      constructor
      · intro hb
        simpa using (ih _ _ _ _ hrest).1 hb
      · intro hb
        obtain ⟨msg, hmsg⟩ := (ih _ _ _ _ hrest).2 hb
        exact ⟨msg, by simpa using hmsg⟩
    | exc msg0 =>
      rw [hfold, hr]
      simp only [_call_gemini_loop, hr, okText]
      have hb' : (if (("" : String).length > b.length) then "" else b) = b := by simp
      rw [hb']
      constructor
      · intro hb
        simpa using (ih _ _ _ _ hrest).1 hb
      · intro hb
        obtain ⟨msg, hmsg⟩ := (ih _ _ _ _ hrest).2 hb
        exact ⟨msg, by simpa using hmsg⟩

/-- C5: when every candidate yields a 404, a transport exception, or
truncated output (token-limit finish with text below the threshold), the
call returns the longest text recorded across candidates if any candidate
produced non-empty text, and raises (the error whose default message is
"no supported model found") when no candidate produced any output. -/
theorem c5_degraded_success_or_raise (candidates : List String)
    (respOf : String → HttpResp) (minChars : Nat) (lw : Option String)
    (h : ∀ m ∈ candidates, advances minChars (respOf m) = true) :
    (bestTextFold respOf candidates "" ≠ "" →
      (_call_gemini true candidates respOf minChars lw).result =
        .ok (bestTextFold respOf candidates "")) ∧
    (bestTextFold respOf candidates "" = "" →
      ∃ msg, (_call_gemini true candidates respOf minChars lw).result = .error msg) := by
  unfold _call_gemini
  simpa using call_loop_advancing respOf minChars candidates none "" none lw h

/-- Witness for C5 at a concrete input: a 404 on the first model and a
truncated response on the second make the call return the truncated text
instead of raising. -/
theorem c5_degraded_success_witness :
    (∀ m ∈ ["a", "b"], advances 180 (respC5 m) = true) ∧
    (_call_gemini true ["a", "b"] respC5 180 none).result = .ok "xy" := by
  constructor
  · decide
  · have h := c5_degraded_success_or_raise ["a", "b"] respC5 180 none (by decide)
    have hb : bestTextFold respC5 ["a", "b"] "" = "xy" := rfl
    have h2 := h.1 (by rw [hb]; decide)
    rwa [hb] at h2

/-- C9: with an empty `GEMINI_API_KEY` (so `LLM_ENABLED` is false), every
advisory operation returns its empty result with no oracle call and no
request attempt, for all inputs. -/
theorem c9_disabled_all_empty (key : String) (hkey : key = "")
    (cands : List String) (respOf : String → HttpResp) (minChars : Nat)
    (lw : Option String) (gm cv jd : String) (kc : List JVal)
    (res : Option JVal) (o : Oracle) :
    (_call_gemini (LLM_ENABLED key) cands respOf minChars lw).result = .ok "" ∧
    (_call_gemini (LLM_ENABLED key) cands respOf minChars lw).attempts = [] ∧
    extract_category_match (LLM_ENABLED key) cv jd o = (.obj [], 0) ∧
    extract_jd_top_skills (LLM_ENABLED key) jd o = (.list [], 0) ∧
    (generate_llm_scores_quickmatch (LLM_ENABLED key) gm cv jd o).out = .obj [] ∧
    (generate_llm_scores_quickmatch (LLM_ENABLED key) gm cv jd o).calls = 0 ∧
    generate_llm_categories (LLM_ENABLED key) gm cv jd o = (.obj [], 0) ∧
    generate_llm_skill_groups (LLM_ENABLED key) gm cv jd kc o = (.obj [], 0) ∧
    generate_llm_insights (LLM_ENABLED key) cv jd res o = (.obj [], 0) := by
  subst hkey
  exact ⟨rfl, rfl, rfl, rfl, rfl, rfl, rfl, rfl, rfl⟩

/-- Witness for C9 at concrete inputs. -/
theorem c9_disabled_witness :
    (_call_gemini (LLM_ENABLED "") ["m1"] respC1 180 none).result = .ok "" ∧
    (_call_gemini (LLM_ENABLED "") ["m1"] respC1 180 none).attempts = [] ∧
    extract_category_match (LLM_ENABLED "") "cv" "jd" oExc = (.obj [], 0) ∧
    extract_jd_top_skills (LLM_ENABLED "") "jd" oExc = (.list [], 0) ∧
    (generate_llm_scores_quickmatch (LLM_ENABLED "") "m" "cv" "jd" oExc).out = .obj [] ∧
    (generate_llm_scores_quickmatch (LLM_ENABLED "") "m" "cv" "jd" oExc).calls = 0 ∧
    generate_llm_categories (LLM_ENABLED "") "m" "cv" "jd" oExc = (.obj [], 0) ∧
    generate_llm_skill_groups (LLM_ENABLED "") "m" "cv" "jd" [] oExc = (.obj [], 0) ∧
    generate_llm_insights (LLM_ENABLED "") "cv" "jd" none oExc = (.obj [], 0) :=
  c9_disabled_all_empty "" rfl ["m1"] respC1 180 none "m" "cv" "jd" [] none oExc

/-- C8 counterexample: a successful insights generation returns the
validated fields with no `_meta` record attached, refuting the claim that
every advisory sub-call tags its result with ModelCallMeta. -/
theorem c8_insights_no_meta_counterexample :
    (generate_llm_insights true "cv" "jd" none oC8).1 =
      .obj [("profile_summary", .str "ok"), ("enhanced_suggestions", .list []),
            ("working_well", .list []), ("needs_improvement", .list [])] ∧
    dget (generate_llm_insights true "cv" "jd" none oC8).1 "_meta" = none :=
  ⟨rfl, rfl⟩

end LlmService
